import Mathlib

/-!
# Verification of the BG-Soft Telegram game backend-integration shim

Shallow embedding of `src/scripts/bg-integration.js` (namespace `Scripts`)
and `src/unnamed/part_003` (namespace `P3`), together with models of the
browser built-ins they use (`JSON.stringify` / `JSON.parse`, `localStorage`,
`URLSearchParams`, `decodeURIComponent`).

JavaScript runtime values that can appear in the script are modelled by
`JSVal`.  JS numbers are modelled as integers (`Int`): every numeric value
the scripts manipulate — Telegram user ids, HTTP statuses — is integral;
fractional numerals are therefore not given a denotation by the JSON-number
model and `Number(s)` on a non-integral numeral is modelled as NaN
(see `jsNumber`).
-/

/-- A JavaScript/JSON value.  `undefined` is not a constructor: absence of a
value (e.g. a missing object property) is modelled as `Option JSVal = none`
at use sites, mirroring the fact that `undefined` never occurs inside JSON
data. Strings are kept as `List Char` to ease induction. -/
inductive JSVal where
  | jnull
  | jbool (b : Bool)
  | jnum (n : Int)
  | jstr (s : List Char)
  | jarr (elems : List JSVal)
  | jobj (fields : List (List Char × JSVal))

mutual

def JSVal.decEq : (a b : JSVal) → Decidable (a = b)
  | .jnull, .jnull => isTrue rfl
  | .jnull, .jbool _ => isFalse (fun h => JSVal.noConfusion h)
  | .jnull, .jnum _ => isFalse (fun h => JSVal.noConfusion h)
  | .jnull, .jstr _ => isFalse (fun h => JSVal.noConfusion h)
  | .jnull, .jarr _ => isFalse (fun h => JSVal.noConfusion h)
  | .jnull, .jobj _ => isFalse (fun h => JSVal.noConfusion h)
  | .jbool _, .jnull => isFalse (fun h => JSVal.noConfusion h)
  | .jbool a, .jbool b =>
    match Bool.decEq a b with
    | isTrue h => isTrue (h ▸ rfl)
    | isFalse h => isFalse (fun he => h (JSVal.jbool.inj he))
  | .jbool _, .jnum _ => isFalse (fun h => JSVal.noConfusion h)
  | .jbool _, .jstr _ => isFalse (fun h => JSVal.noConfusion h)
  | .jbool _, .jarr _ => isFalse (fun h => JSVal.noConfusion h)
  | .jbool _, .jobj _ => isFalse (fun h => JSVal.noConfusion h)
  | .jnum _, .jnull => isFalse (fun h => JSVal.noConfusion h)
  | .jnum _, .jbool _ => isFalse (fun h => JSVal.noConfusion h)
  | .jnum a, .jnum b =>
    match Int.decEq a b with
    | isTrue h => isTrue (h ▸ rfl)
    | isFalse h => isFalse (fun he => h (JSVal.jnum.inj he))
  | .jnum _, .jstr _ => isFalse (fun h => JSVal.noConfusion h)
  | .jnum _, .jarr _ => isFalse (fun h => JSVal.noConfusion h)
  | .jnum _, .jobj _ => isFalse (fun h => JSVal.noConfusion h)
  | .jstr _, .jnull => isFalse (fun h => JSVal.noConfusion h)
  | .jstr _, .jbool _ => isFalse (fun h => JSVal.noConfusion h)
  | .jstr _, .jnum _ => isFalse (fun h => JSVal.noConfusion h)
  | .jstr a, .jstr b =>
    match (inferInstance : DecidableEq (List Char)) a b with
    | isTrue h => isTrue (h ▸ rfl)
    | isFalse h => isFalse (fun he => h (JSVal.jstr.inj he))
  | .jstr _, .jarr _ => isFalse (fun h => JSVal.noConfusion h)
  | .jstr _, .jobj _ => isFalse (fun h => JSVal.noConfusion h)
  | .jarr _, .jnull => isFalse (fun h => JSVal.noConfusion h)
  | .jarr _, .jbool _ => isFalse (fun h => JSVal.noConfusion h)
  | .jarr _, .jnum _ => isFalse (fun h => JSVal.noConfusion h)
  | .jarr _, .jstr _ => isFalse (fun h => JSVal.noConfusion h)
  | .jarr a, .jarr b =>
    match JSVal.decEqList a b with
    | isTrue h => isTrue (h ▸ rfl)
    | isFalse h => isFalse (fun he => h (JSVal.jarr.inj he))
  | .jarr _, .jobj _ => isFalse (fun h => JSVal.noConfusion h)
  | .jobj _, .jnull => isFalse (fun h => JSVal.noConfusion h)
  | .jobj _, .jbool _ => isFalse (fun h => JSVal.noConfusion h)
  | .jobj _, .jnum _ => isFalse (fun h => JSVal.noConfusion h)
  | .jobj _, .jstr _ => isFalse (fun h => JSVal.noConfusion h)
  | .jobj _, .jarr _ => isFalse (fun h => JSVal.noConfusion h)
  | .jobj a, .jobj b =>
    match JSVal.decEqFields a b with
    | isTrue h => isTrue (h ▸ rfl)
    | isFalse h => isFalse (fun he => h (JSVal.jobj.inj he))

def JSVal.decEqList : (a b : List JSVal) → Decidable (a = b)
  | [], [] => isTrue rfl
  | [], _ :: _ => isFalse (fun h => List.noConfusion h)
  | _ :: _, [] => isFalse (fun h => List.noConfusion h)
  | a :: as, b :: bs =>
    match JSVal.decEq a b, JSVal.decEqList as bs with
    | isTrue h1, isTrue h2 => isTrue (h1 ▸ h2 ▸ rfl)
    | isFalse h1, _ => isFalse (fun he => h1 (List.cons.inj he).1)
    | _, isFalse h2 => isFalse (fun he => h2 (List.cons.inj he).2)

def JSVal.decEqFields : (a b : List (List Char × JSVal)) → Decidable (a = b)
  | [], [] => isTrue rfl
  | [], _ :: _ => isFalse (fun h => List.noConfusion h)
  | _ :: _, [] => isFalse (fun h => List.noConfusion h)
  | (k1, v1) :: as, (k2, v2) :: bs =>
    match (inferInstance : DecidableEq (List Char)) k1 k2, JSVal.decEq v1 v2, JSVal.decEqFields as bs with
    | isTrue hk, isTrue hv, isTrue ht => isTrue (hk ▸ hv ▸ ht ▸ rfl)
    | isFalse hk, _, _ =>
      isFalse (fun he => hk (congrArg Prod.fst (List.cons.inj he).1))
    | _, isFalse hv, _ =>
      isFalse (fun he => hv (congrArg Prod.snd (List.cons.inj he).1))
    | _, _, isFalse ht => isFalse (fun he => ht (List.cons.inj he).2)

end

instance : DecidableEq JSVal := JSVal.decEq

instance : Inhabited JSVal := ⟨.jnull⟩

/-- JS truthiness of a `JSVal` (`null`, `false`, `0`, `""` are falsy;
objects and arrays are always truthy). -/
def jsTruthy : JSVal → Bool
  | .jnull => false
  | .jbool b => b
  | .jnum n => n != 0
  | .jstr s => !s.isEmpty
  | .jarr _ => true
  | .jobj _ => true

/-- Property read `v.k` on a JS value: a member of an object (for duplicate
keys, as produced by `JSON.parse`, the last binding wins), `none`
(i.e. `undefined`) on anything else. -/
def jsGetField (v : JSVal) (k : List Char) : Option JSVal :=
  match v with
  | .jobj fields => (fields.reverse.find? (fun p => p.1 = k)).map (·.2)
  | _ => none

/-- `a?.k` where `a` itself may be absent (`none` = `undefined`): optional
chaining short-circuits on `null`/`undefined`, and property access on any
other non-object yields `undefined`. -/
def optChainField (v : Option JSVal) (k : List Char) : Option JSVal :=
  match v with
  | none => none
  | some .jnull => none
  | some x => jsGetField x k

/-- `a ?? d` where `a` may be absent: nullish coalescing replaces only
`null`/`undefined`. -/
def jsNullish (v : Option JSVal) (dflt : JSVal) : JSVal :=
  match v with
  | none => dflt
  | some .jnull => dflt
  | some x => x

/-- `a || d` where `a` may be absent: logical-or takes `a` iff it is truthy. -/
def jsOrU (v : Option JSVal) (dflt : JSVal) : JSVal :=
  match v with
  | none => dflt
  | some x => if jsTruthy x then x else dflt

/-! ## `JSON.stringify` -/

/-- Lower-case hex digit, as emitted by `JSON.stringify` in `\u00XX`
escapes. -/
def hexDigitChar (n : Nat) : Char :=
  if n < 10 then Char.ofNat ('0'.toNat + n) else Char.ofNat ('a'.toNat + (n - 10))

/-- The escape sequence `JSON.stringify` uses for one character of a string:
quote and backslash get two-character escapes, the five named control
characters get their short forms, other control characters get `\u00XX`,
everything else is emitted literally. -/
def escapeChar (c : Char) : List Char :=
  if c = '"' then ['\\', '"']
  else if c = '\\' then ['\\', '\\']
  else if c = '\x08' then ['\\', 'b']
  else if c = '\x0c' then ['\\', 'f']
  else if c = '\n' then ['\\', 'n']
  else if c = '\r' then ['\\', 'r']
  else if c = '\t' then ['\\', 't']
  else if c.toNat < 0x20 then
    ['\\', 'u', '0', '0', hexDigitChar (c.toNat / 16), hexDigitChar (c.toNat % 16)]
  else [c]

def escapeStr : List Char → List Char
  | [] => []
  | c :: cs => escapeChar c ++ escapeStr cs

/-- A JSON string literal: quote, escaped body, quote. -/
def stringifyStr (s : List Char) : List Char :=
  '"' :: (escapeStr s ++ ['"'])

mutual

/-- `JSON.stringify` (no indentation, no replacer), producing the compact
form the scripts store in `localStorage`. -/
def stringifyVal : JSVal → List Char
  | .jnull => ['n', 'u', 'l', 'l']
  | .jbool true => ['t', 'r', 'u', 'e']
  | .jbool false => ['f', 'a', 'l', 's', 'e']
  | .jnum n => (toString n).data
  | .jstr s => stringifyStr s
  | .jarr es => '[' :: (stringifyElems es ++ [']'])
  | .jobj fs => '\x7b' :: (stringifyFields fs ++ ['\x7d'])

def stringifyElems : List JSVal → List Char
  | [] => []
  | [e] => stringifyVal e
  | e :: es => stringifyVal e ++ (',' :: stringifyElems es)

def stringifyFields : List (List Char × JSVal) → List Char
  | [] => []
  | [(k, v)] => stringifyStr k ++ (':' :: stringifyVal v)
  | (k, v) :: fs => stringifyStr k ++ (':' :: stringifyVal v) ++ (',' :: stringifyFields fs)

end

/-! ## `JSON.parse` -/

/-- JSON insignificant whitespace. -/
def isJsonWs (c : Char) : Bool :=
  c = ' ' || c = '\t' || c = '\n' || c = '\r'

def skipWs : List Char → List Char
  | [] => []
  | c :: cs => if isJsonWs c then skipWs cs else c :: cs

def hexVal (c : Char) : Option Nat :=
  if '0' ≤ c ∧ c ≤ '9' then some (c.toNat - '0'.toNat)
  else if 'a' ≤ c ∧ c ≤ 'f' then some (c.toNat - 'a'.toNat + 10)
  else if 'A' ≤ c ∧ c ≤ 'F' then some (c.toNat - 'A'.toNat + 10)
  else none

/-- Body of a JSON string literal, after the opening quote: returns the
decoded content and the remaining input after the closing quote.  Raw
control characters are rejected, as in JSON. -/
def parseStrBody : List Char → Option (List Char × List Char)
  | [] => none
  | c :: rest =>
    if c = '"' then some ([], rest)
    else if c = '\\' then
      match rest with
      | [] => none
      | e :: rest2 =>
        if e = '"' ∨ e = '\\' ∨ e = '/' then
          (parseStrBody rest2).map (fun p => ((if e = '/' then '/' else e) :: p.1, p.2))
        else if e = 'b' then (parseStrBody rest2).map (fun p => ('\x08' :: p.1, p.2))
        else if e = 'f' then (parseStrBody rest2).map (fun p => ('\x0c' :: p.1, p.2))
        else if e = 'n' then (parseStrBody rest2).map (fun p => ('\n' :: p.1, p.2))
        else if e = 'r' then (parseStrBody rest2).map (fun p => ('\r' :: p.1, p.2))
        else if e = 't' then (parseStrBody rest2).map (fun p => ('\t' :: p.1, p.2))
        else if e = 'u' then
          match rest2 with
          | h1 :: h2 :: h3 :: h4 :: rest3 =>
            match hexVal h1, hexVal h2, hexVal h3, hexVal h4 with
            | some a, some b, some c2, some d =>
              (parseStrBody rest3).map
                (fun p => (Char.ofNat (((a * 16 + b) * 16 + c2) * 16 + d) :: p.1, p.2))
            | _, _, _, _ => none
          | _ => none
        else none
    else if c.toNat < 0x20 then none
    else (parseStrBody rest).map (fun p => (c :: p.1, p.2))

def isDigit (c : Char) : Bool :=
  '0' ≤ c && c ≤ '9'

def parseDigitsAux (acc : Nat) : List Char → Nat × List Char
  | [] => (acc, [])
  | c :: rest =>
    if isDigit c then parseDigitsAux (acc * 10 + (c.toNat - '0'.toNat)) rest
    else (acc, c :: rest)

/-- A JSON numeral restricted to the integral grammar: optional minus then
digits.  A numeral continuing with a fraction or exponent is given no
denotation here (JS floats are outside the model); no such value is ever
produced or stored by the scripts. -/
def parseNum : List Char → Option (Int × List Char)
  | [] => none
  | c :: rest =>
    if c = '-' then
      match rest with
      | d :: rest2 =>
        if isDigit d then
          let p := parseDigitsAux (d.toNat - '0'.toNat) rest2
          match p.2 with
          | e :: _ => if e = '.' ∨ e = 'e' ∨ e = 'E' then none else some (-(p.1 : Int), p.2)
          | [] => some (-(p.1 : Int), [])
        else none
      | [] => none
    else if isDigit c then
      let p := parseDigitsAux (c.toNat - '0'.toNat) rest
      match p.2 with
      | e :: _ => if e = '.' ∨ e = 'e' ∨ e = 'E' then none else some ((p.1 : Int), p.2)
      | [] => some ((p.1 : Int), [])
    else none

mutual

/-- One JSON value, by recursive descent.  The `Nat` argument is a recursion
budget (the nesting depth the parser is still willing to enter); the
top-level entry point `jsonParse` passes a budget that cannot be exhausted
on its input, so the budget is a termination device, not part of the
modelled behaviour. -/
def parseVal : Nat → List Char → Option (JSVal × List Char)
  | 0, _ => none
  | fuel + 1, s =>
    match skipWs s with
    | [] => none
    | 'n' :: 'u' :: 'l' :: 'l' :: rest => some (.jnull, rest)
    | 't' :: 'r' :: 'u' :: 'e' :: rest => some (.jbool true, rest)
    | 'f' :: 'a' :: 'l' :: 's' :: 'e' :: rest => some (.jbool false, rest)
    | '"' :: rest => (parseStrBody rest).map (fun p => (JSVal.jstr p.1, p.2))
    | '[' :: rest =>
      (match skipWs rest with
       | ']' :: rest2 => some (JSVal.jarr [], rest2)
       | other => (parseElems fuel other).map (fun p => (JSVal.jarr p.1, p.2)))
    | '\x7b' :: rest =>
      (match skipWs rest with
       | '\x7d' :: rest2 => some (JSVal.jobj [], rest2)
       | other => (parseMembers fuel other).map (fun p => (JSVal.jobj p.1, p.2)))
    | other => (parseNum other).map (fun p => (JSVal.jnum p.1, p.2))

/-- Non-empty comma-separated array elements, up to and including `]`. -/
def parseElems : Nat → List Char → Option (List JSVal × List Char)
  | 0, _ => none
  | fuel + 1, s =>
    match parseVal fuel s with
    | none => none
    | some (v, rest) =>
      match skipWs rest with
      | ',' :: rest2 => (parseElems fuel rest2).map (fun p => (v :: p.1, p.2))
      | ']' :: rest2 => some ([v], rest2)
      | _ => none

/-- Non-empty comma-separated object members, up to and including `}`. -/
def parseMembers : Nat → List Char → Option (List (List Char × JSVal) × List Char)
  | 0, _ => none
  | fuel + 1, s =>
    match skipWs s with
    | '"' :: rest =>
      (match parseStrBody rest with
       | none => none
       | some (k, rest2) =>
         match skipWs rest2 with
         | ':' :: rest3 =>
           (match parseVal fuel rest3 with
            | none => none
            | some (v, rest4) =>
              match skipWs rest4 with
              | ',' :: rest5 => (parseMembers fuel rest5).map (fun p => ((k, v) :: p.1, p.2))
              | '\x7d' :: rest5 => some ([(k, v)], rest5)
              | _ => none)
         | _ => none)
    | _ => none

end

inductive JsErr where
  | storageError
  | jsonError
deriving DecidableEq

instance {ε α : Type} [DecidableEq ε] [DecidableEq α] : DecidableEq (Except ε α) := fun a b =>
  match a, b with
  | .ok x, .ok y =>
    match decEq x y with
    | isTrue h => isTrue (h ▸ rfl)
    | isFalse h => isFalse (fun he => h (Except.ok.inj he))
  | .error x, .error y =>
    match decEq x y with
    | isTrue h => isTrue (h ▸ rfl)
    | isFalse h => isFalse (fun he => h (Except.error.inj he))
  | .ok _, .error _ => isFalse (fun h => Except.noConfusion h)
  | .error _, .ok _ => isFalse (fun h => Except.noConfusion h)

/-- `JSON.parse`: one value, possibly surrounded by whitespace, consuming the
whole input; anything else raises (modelled as `Except.error`). -/
def jsonParse (s : List Char) : Except JsErr JSVal :=
  match parseVal (s.length + 1) s with
  | some (v, rest) => if skipWs rest = [] then .ok v else .error .jsonError
  | none => .error .jsonError

/-! ## `localStorage` and the persisted session record

The scripts use a single key, `SESSION_KEY = "bg_session_v1"`.  The storage
state is therefore modelled as the value stored under that key, plus a
`disabled` state in which every `localStorage` access throws (storage
denied/unavailable), which is what the scripts' `try/catch` wrappers guard
against. -/

inductive Storage where
  | disabled
  | available (val : Option (List Char))
deriving DecidableEq

def getItemRaw : Storage → Except JsErr (Option (List Char))
  | .disabled => .error .storageError
  | .available v => .ok v

def setItemRaw (s : List Char) : Storage → Except JsErr Storage
  | .disabled => .error .storageError
  | .available _ => .ok (.available (some s))

def removeItemRaw : Storage → Except JsErr Storage
  | .disabled => .error .storageError
  | .available _ => .ok (.available none)

/-- The record the scripts persist: `{ id: ..., started_at: ... }`.  The `id`
is whatever `data.session_id || data.id || null` produced (a `JSVal`);
`started_at` is an ISO-timestamp string. -/
structure SessionRecord where
  id : JSVal
  started_at : List Char

def SessionRecord.toJS (r : SessionRecord) : JSVal :=
  .jobj [("id".data, r.id), ("started_at".data, .jstr r.started_at)]

/-- `saveSession(s) { try { localStorage.setItem(SESSION_KEY, JSON.stringify(s)); } catch {} }` -/
def saveSession (r : SessionRecord) (st : Storage) : Storage :=
  match setItemRaw (stringifyVal r.toJS) st with
  | .ok st2 => st2
  | .error _ => st

/-- The body of the `try` in `loadSession`:
`JSON.parse(localStorage.getItem(SESSION_KEY) || "null")`.  A missing key
(`null`) and an empty string are both falsy, so `"null"` is parsed in their
place. -/
def loadSessionRaw (st : Storage) : Except JsErr JSVal := do
  let v ← getItemRaw st
  jsonParse (match v with
    | none => "null".data
    | some s => if s.isEmpty then "null".data else s)

/-- `loadSession()`: the `try` body with the `catch { return null }`. -/
def loadSession (st : Storage) : JSVal :=
  match loadSessionRaw st with
  | .ok v => v
  | .error _ => .jnull

/-- `clearSession() { try { localStorage.removeItem(SESSION_KEY); } catch {} }` -/
def clearSession (st : Storage) : Storage :=
  match removeItemRaw st with
  | .ok st2 => st2
  | .error _ => st

/-! ## Round-trip of the stored record through `JSON.stringify`/`JSON.parse` -/

theorem hexVal_hexDigitChar {m : Nat} (h : m < 16) :
    hexVal (hexDigitChar m) = some m := by
  have key : ∀ m : Fin 16, hexVal (hexDigitChar m.val) = some m.val := by decide
  exact key ⟨m, h⟩

theorem psb_quote (rest : List Char) : parseStrBody ('"' :: rest) = some ([], rest) := by
  rw [parseStrBody.eq_def]; simp

theorem psb_esc_quote (rest : List Char) :
    parseStrBody ('\\' :: '"' :: rest) = (parseStrBody rest).map (fun p => ('"' :: p.1, p.2)) := by
  rw [parseStrBody.eq_def]; simp

theorem psb_esc_backslash (rest : List Char) :
    parseStrBody ('\\' :: '\\' :: rest) = (parseStrBody rest).map (fun p => ('\\' :: p.1, p.2)) := by
  rw [parseStrBody.eq_def]; simp

theorem psb_esc_b (rest : List Char) :
    parseStrBody ('\\' :: 'b' :: rest) = (parseStrBody rest).map (fun p => ('\x08' :: p.1, p.2)) := by
  rw [parseStrBody.eq_def]; simp

theorem psb_esc_f (rest : List Char) :
    parseStrBody ('\\' :: 'f' :: rest) = (parseStrBody rest).map (fun p => ('\x0c' :: p.1, p.2)) := by
  rw [parseStrBody.eq_def]; simp

theorem psb_esc_n (rest : List Char) :
    parseStrBody ('\\' :: 'n' :: rest) = (parseStrBody rest).map (fun p => ('\n' :: p.1, p.2)) := by
  rw [parseStrBody.eq_def]; simp

theorem psb_esc_r (rest : List Char) :
    parseStrBody ('\\' :: 'r' :: rest) = (parseStrBody rest).map (fun p => ('\r' :: p.1, p.2)) := by
  rw [parseStrBody.eq_def]; simp

theorem psb_esc_t (rest : List Char) :
    parseStrBody ('\\' :: 't' :: rest) = (parseStrBody rest).map (fun p => ('\t' :: p.1, p.2)) := by
  rw [parseStrBody.eq_def]; simp

theorem psb_esc_u (h1 h2 h3 h4 : Char) (a b c2 d : Nat) (ha : hexVal h1 = some a)
    (hb : hexVal h2 = some b) (hc : hexVal h3 = some c2) (hd : hexVal h4 = some d)
    (rest : List Char) :
    parseStrBody ('\\' :: 'u' :: h1 :: h2 :: h3 :: h4 :: rest) =
      (parseStrBody rest).map
        (fun p => (Char.ofNat (((a * 16 + b) * 16 + c2) * 16 + d) :: p.1, p.2)) := by
  rw [parseStrBody.eq_def]
  simp [ha, hb, hc, hd]

theorem psb_plain (c : Char) (h1 : c ≠ '"') (h2 : c ≠ '\\') (h3 : ¬ c.toNat < 0x20)
    (rest : List Char) :
    parseStrBody (c :: rest) = (parseStrBody rest).map (fun p => (c :: p.1, p.2)) := by
  rw [parseStrBody.eq_def]; simp [h1, h2, h3]

/-- The string-literal body parser undoes `JSON.stringify`'s escaping:
after the opening quote, the escaped body followed by a closing quote and
any suffix parses back to the original characters. -/
theorem parseStrBody_escape (s rest : List Char) :
    parseStrBody (escapeStr s ++ '"' :: rest) = some (s, rest) := by
  induction s with
  | nil => simpa [escapeStr] using psb_quote rest
  | cons c cs ih =>
    rw [escapeStr, List.append_assoc]
    by_cases h1 : c = '"'
    · subst h1; simp [escapeChar, psb_esc_quote, ih]
    · by_cases h2 : c = '\\'
      · subst h2; simp [escapeChar, psb_esc_backslash, ih]
      · by_cases h3 : c = '\x08'
        · subst h3; simp [escapeChar, psb_esc_b, ih]
        · by_cases h4 : c = '\x0c'
          · subst h4; simp [escapeChar, psb_esc_f, ih]
          · by_cases h5 : c = '\n'
            · subst h5; simp [escapeChar, psb_esc_n, ih]
            · by_cases h6 : c = '\r'
              · subst h6; simp [escapeChar, psb_esc_r, ih]
              · by_cases h7 : c = '\t'
                · subst h7; simp [escapeChar, psb_esc_t, ih]
                · by_cases h8 : c.toNat < 0x20
                  · have hdiv : c.toNat / 16 < 16 := by omega
                    have hmod : c.toNat % 16 < 16 := by omega
                    simp only [escapeChar, h1, h2, h3, h4, h5, h6, h7, h8, if_true, if_false,
                      ite_true, ite_false, List.cons_append, List.nil_append]
                    rw [psb_esc_u _ _ _ _ _ _ _ _ (show hexVal '0' = some 0 by decide)
                      (show hexVal '0' = some 0 by decide)
                      (hexVal_hexDigitChar hdiv) (hexVal_hexDigitChar hmod), ih]
                    have hval : c.toNat / 16 * 16 + c.toNat % 16 = c.toNat := by omega
                    simp [hval, Char.ofNat_toNat]
                  · simp [escapeChar, h1, h2, h3, h4, h5, h6, h7, h8,
                      psb_plain c h1 h2 h8, ih]

theorem parseVal_null (g : Nat) (rest : List Char) :
    parseVal (g + 1) (stringifyVal .jnull ++ rest) = some (.jnull, rest) := by
  rw [stringifyVal, parseVal.eq_def]
  simp [skipWs, isJsonWs]

theorem parseVal_str (g : Nat) (s rest : List Char) :
    parseVal (g + 1) (stringifyVal (.jstr s) ++ rest) = some (.jstr s, rest) := by
  rw [stringifyVal, stringifyStr, parseVal.eq_def]
  simp [skipWs, isJsonWs, parseStrBody_escape]

theorem parseMembers_last (g : Nat) (k : List Char) (v : JSVal)
    (hv : ∀ rest2, parseVal (g + 1) (stringifyVal v ++ rest2) = some (v, rest2))
    (rest : List Char) :
    parseMembers (g + 2) (stringifyStr k ++ (':' :: stringifyVal v) ++ '\x7d' :: rest) =
      some ([(k, v)], rest) := by
  rw [stringifyStr, parseMembers.eq_def]
  simp only [List.cons_append, List.append_assoc, List.singleton_append]
  simp [skipWs, isJsonWs, parseStrBody_escape, hv]

theorem parseMembers_cons (g : Nat) (k : List Char) (v : JSVal)
    (hv : ∀ rest2, parseVal (g + 1) (stringifyVal v ++ rest2) = some (v, rest2))
    (ms : List (List Char × JSVal)) (tail rest : List Char)
    (hms : parseMembers (g + 1) tail = some (ms, rest)) :
    parseMembers (g + 2) (stringifyStr k ++ (':' :: stringifyVal v) ++ ',' :: tail) =
      some ((k, v) :: ms, rest) := by
  rw [stringifyStr, parseMembers.eq_def]
  simp only [List.cons_append, List.append_assoc, List.singleton_append]
  simp [skipWs, isJsonWs, parseStrBody_escape, hv, hms]

theorem skipWs_cons_of_not (c : Char) (h : isJsonWs c = false) (cs : List Char) :
    skipWs (c :: cs) = c :: cs := by
  simp [skipWs, h]

theorem parseVal_sessionJS (m : Nat) (i : JSVal) (hi : i = .jnull ∨ ∃ s, i = .jstr s)
    (ts rest : List Char) :
    parseVal (m + 4) (stringifyVal (SessionRecord.mk i ts).toJS ++ rest) =
      some ((SessionRecord.mk i ts).toJS, rest) := by
  have hv1 : ∀ rest2, parseVal (m + 2) (stringifyVal i ++ rest2) = some (i, rest2) := by
    rcases hi with h | ⟨s, h⟩ <;> subst h
    · exact fun r2 => parseVal_null (m + 1) r2
    · exact fun r2 => parseVal_str (m + 1) s r2
  have hv2 : ∀ rest2, parseVal (m + 1) (stringifyVal (.jstr ts) ++ rest2) =
      some (.jstr ts, rest2) := fun r2 => parseVal_str m ts r2
  have hm2 : parseMembers (m + 2)
      (stringifyStr ['s', 't', 'a', 'r', 't', 'e', 'd', '_', 'a', 't'] ++
        (':' :: stringifyVal (.jstr ts)) ++ '\x7d' :: rest) =
      some ([(['s', 't', 'a', 'r', 't', 'e', 'd', '_', 'a', 't'], .jstr ts)], rest) :=
    parseMembers_last m _ _ hv2 rest
  have hm1 : parseMembers (m + 3)
      (stringifyStr ['i', 'd'] ++ (':' :: stringifyVal i) ++
        ',' :: (stringifyStr ['s', 't', 'a', 'r', 't', 'e', 'd', '_', 'a', 't'] ++
          (':' :: stringifyVal (.jstr ts)) ++ '\x7d' :: rest)) =
      some ([(['i', 'd'], i), (['s', 't', 'a', 'r', 't', 'e', 'd', '_', 'a', 't'], .jstr ts)], rest) :=
    parseMembers_cons (m + 1) _ _ hv1 _ _ _ hm2
  simp only [stringifyVal, stringifyStr, List.cons_append, List.append_assoc, List.nil_append] at hm1
  rw [SessionRecord.toJS, parseVal.eq_def]
  simp only [stringifyVal, stringifyFields, List.cons_append, List.append_assoc, List.nil_append]
  rw [skipWs_cons_of_not '\x7b' (by decide)]
  simp only [stringifyStr, List.cons_append, List.append_assoc, List.nil_append]
  rw [skipWs_cons_of_not '"' (by decide)]
  simp [hm1]

/-- The stored record's JSON text round-trips through the parser: this is the
instance of parser correctness the storage layer relies on, for the record
shapes the scripts produce (an `id` that is `null` or a string). -/
theorem jsonParse_session (i : JSVal) (hi : i = .jnull ∨ ∃ s, i = .jstr s) (ts : List Char) :
    jsonParse (stringifyVal (SessionRecord.mk i ts).toJS) = .ok (SessionRecord.mk i ts).toJS := by
  have h3 : 3 ≤ (stringifyVal (SessionRecord.mk i ts).toJS).length := by
    simp [SessionRecord.toJS, stringifyVal, stringifyFields, stringifyStr, List.length_append]
    omega
  obtain ⟨m, hm⟩ : ∃ m, (stringifyVal (SessionRecord.mk i ts).toJS).length + 1 = m + 4 :=
    ⟨(stringifyVal (SessionRecord.mk i ts).toJS).length - 3, by omega⟩
  have hp := parseVal_sessionJS m i hi ts []
  rw [List.append_nil] at hp
  rw [jsonParse, hm, hp]
  simp [skipWs]

/-- The record's serialized text is never the empty string (it opens with a
brace), so it is not confused with an absent value by the `|| "null"`
fallback in `loadSession`. -/
theorem stringify_session_ne_nil (i : JSVal) (ts : List Char) :
    stringifyVal (SessionRecord.mk i ts).toJS ≠ [] := by
  simp [SessionRecord.toJS, stringifyVal]

/-- A session id as the spec's data model describes it: a string, or null
until a start succeeds. -/
def idToJS : Option (List Char) → JSVal
  | none => .jnull
  | some s => .jstr s

/-- The storage round-trip for every record shape the scripts produce: with
the storage available, saving a record whose id is null or a string and
reading it back yields the record's JSON value. -/
theorem loadSession_saveSession (i : JSVal) (hi : i = .jnull ∨ ∃ s, i = .jstr s)
    (ts : List Char) (v : Option (List Char)) :
    loadSession (saveSession ⟨i, ts⟩ (.available v)) = (SessionRecord.mk i ts).toJS := by
  have hne := stringify_session_ne_nil i ts
  have hparse : jsonParse (stringifyVal (SessionRecord.mk i ts).toJS) =
      .ok (SessionRecord.mk i ts).toJS := jsonParse_session i hi ts
  simp [saveSession, setItemRaw, loadSession, loadSessionRaw, getItemRaw, bind, Except.bind,
    hne, hparse]

/-- Reading after removing the key yields null. -/
theorem loadSession_clearSession (v : Option (List Char)) :
    loadSession (clearSession (.available v)) = .jnull := by
  simp only [clearSession, removeItemRaw, loadSession, loadSessionRaw, getItemRaw]
  decide

/-- **C3.**  For every session record `x` (an `id` that is a string or null,
and a `started_at` timestamp string), with the storage available,
`loadSession()` after `saveSession(x)` returns the JSON value of `x`
(round-trip), and `loadSession()` after `clearSession()` returns the absent
value `null` — whatever was stored before. -/
theorem loadSession_after_saveSession (i : Option (List Char)) (ts : List Char)
    (v v2 : Option (List Char)) :
    loadSession (saveSession ⟨idToJS i, ts⟩ (.available v)) =
      (SessionRecord.mk (idToJS i) ts).toJS
    ∧ loadSession (clearSession (.available v2)) = .jnull := by
  refine ⟨loadSession_saveSession (idToJS i) ?_ ts v, loadSession_clearSession v2⟩
  cases i with
  | none => exact Or.inl rfl
  | some s => exact Or.inr ⟨s, rfl⟩

/-- **C4.**  `loadSession()` never raises, for every storage state: a
missing key, a stored value that fails to parse as JSON, and a storage that
itself throws on access all yield the explicit absent value `null`; and
`saveSession`/`clearSession` behave as no-ops (rather than raising) when
the storage throws. -/
theorem loadSession_total (s : List Char) (e : JsErr) (r : SessionRecord)
    (hbad : jsonParse s = .error e) :
    loadSession .disabled = .jnull
    ∧ loadSession (.available none) = .jnull
    ∧ loadSession (.available (some s)) = .jnull
    ∧ saveSession r .disabled = .disabled
    ∧ clearSession .disabled = .disabled := by
  refine ⟨by simp [loadSession, loadSessionRaw, getItemRaw, bind, Except.bind], ?_, ?_, rfl, rfl⟩
  · simp only [loadSession, loadSessionRaw, getItemRaw]
    decide
  · by_cases hs : s = []
    · subst hs
      simp only [loadSession, loadSessionRaw, getItemRaw]
      decide
    · simp [loadSession, loadSessionRaw, getItemRaw, bind, Except.bind, hs, hbad]

/-- Witness for C4 at a concrete corrupted storage state: the stored text
is not valid JSON, and `loadSession` returns the absent value. -/
theorem loadSession_total_witness :
    loadSession (.available (some "\x7bcorrupt".data)) = .jnull :=
  (loadSession_total "\x7bcorrupt".data .jsonError ⟨.jnull, []⟩ (by decide)).2.2.1

/-! ## Transport helper: `fetchWithTimeout` (identical in both script variants)

The loop `for (attempt = 0; attempt <= retries; attempt++)` performs the
`fetch`, returns any received response immediately, and on an exception
(network error or the timeout-driven abort — both surface as a rejected
promise) retries unless `attempt === retries`, in which case the exception
propagates.  The network is modelled as a function from the attempt index
to that attempt's outcome; the real-time timeout mechanism itself
(`AbortController`/`setTimeout`) is abstracted into the `failure` outcome,
which covers both a network error and a timeout abort. -/

/-- An HTTP response: `ok` is derived from the status, as for the `fetch`
`Response` object. -/
structure Response where
  status : Nat
  body : List Char
deriving DecidableEq

def Response.ok (r : Response) : Bool :=
  200 ≤ r.status && r.status < 300

/-- What one attempt of the transport does: deliver a response (of any
status), or fail (network error or timeout abort), with an error value. -/
inductive FetchOutcome where
  | success (r : Response)
  | failure (e : List Char)
deriving DecidableEq

/-- The retry loop from attempt index `attempt` with `remaining` further
attempts allowed after this one (`remaining = retries - attempt`, so
`remaining = 0` exactly when `attempt === retries` and a failure is
rethrown).  Returns the loop's result together with the number of attempts
performed in total (`attempt` prior ones plus the ones this call makes). -/
def fetchFrom (transport : Nat → FetchOutcome) (attempt : Nat) :
    Nat → Except (List Char) Response × Nat
  | 0 =>
    match transport attempt with
    | .success r => (.ok r, attempt + 1)
    | .failure e => (.error e, attempt + 1)
  | remaining + 1 =>
    match transport attempt with
    | .success r => (.ok r, attempt + 1)
    | .failure _ => fetchFrom transport (attempt + 1) remaining

/-- `fetchWithTimeout(url, options, timeoutMs, retries)`, as a function of
the transport behaviour and the retry count.  The pair is (what the call
returns or raises, how many attempts were made). -/
def fetchWithTimeout (transport : Nat → FetchOutcome) (retries : Nat) :
    Except (List Char) Response × Nat :=
  fetchFrom transport 0 retries

theorem fetchFrom_all_fail (transport : Nat → FetchOutcome) (errs : Nat → List Char)
    (h : ∀ i, transport i = .failure (errs i)) :
    ∀ remaining attempt, fetchFrom transport attempt remaining =
      (.error (errs (attempt + remaining)), attempt + remaining + 1) := by
  intro remaining
  induction remaining with
  | zero => intro attempt; simp [fetchFrom, h attempt]
  | succ n ih =>
    intro attempt
    rw [fetchFrom, h attempt]
    rw [ih (attempt + 1)]
    ring_nf

/-- **C1.**  For every retry count `r`, if every attempt fails (network
error or timeout abort), `fetchWithTimeout` makes exactly `r + 1` attempts
and raises the error of the last attempt (index `r`); no earlier attempt's
error is raised, and no result is produced before the last attempt. -/
theorem fetchWithTimeout_all_fail (transport : Nat → FetchOutcome)
    (errs : Nat → List Char) (h : ∀ i, transport i = .failure (errs i)) (r : Nat) :
    fetchWithTimeout transport r = (.error (errs r), r + 1) := by
  rw [fetchWithTimeout, fetchFrom_all_fail transport errs h r 0]
  simp

/-- Witness for C1: a transport that always fails with error `e`; with
`retries = 2`, three attempts are made and `e` is raised. -/
theorem fetchWithTimeout_all_fail_witness :
    fetchWithTimeout (fun _ => .failure ['e']) 2 = (.error ['e'], 3) :=
  fetchWithTimeout_all_fail (fun _ => .failure ['e']) (fun _ => ['e']) (fun _ => rfl) 2

theorem fetchFrom_success (transport : Nat → FetchOutcome) (resp : Response) :
    ∀ (j remaining attempt : Nat), j ≤ remaining →
      (∀ i, i < j → ∃ e, transport (attempt + i) = .failure e) →
      transport (attempt + j) = .success resp →
      fetchFrom transport attempt remaining = (.ok resp, attempt + j + 1) := by
  intro j
  induction j with
  | zero =>
    intro remaining attempt _ _ hsucc
    cases remaining with
    | zero => simp at hsucc; simp [fetchFrom, hsucc]
    | succ n => simp at hsucc; simp [fetchFrom, hsucc]
  | succ k ih =>
    intro remaining attempt hle hfail hsucc
    cases remaining with
    | zero => omega
    | succ n =>
      obtain ⟨e, he⟩ := hfail 0 (Nat.succ_pos k)
      rw [fetchFrom]
      simp only [Nat.add_zero] at he
      rw [he]
      have hfail2 : ∀ i, i < k → ∃ e2, transport (attempt + 1 + i) = .failure e2 := by
        intro i hi
        obtain ⟨e2, he2⟩ := hfail (i + 1) (by omega)
        exact ⟨e2, by rw [show attempt + 1 + i = attempt + (i + 1) by omega]; exact he2⟩
      have hsucc2 : transport (attempt + 1 + k) = .success resp := by
        rw [show attempt + 1 + k = attempt + (k + 1) by omega]; exact hsucc
      rw [ih n (attempt + 1) (by omega) hfail2 hsucc2]
      have harith : attempt + 1 + k + 1 = attempt + (k + 1) + 1 := by omega
      simp [harith]

/-- **C5.**  If the attempt with zero-based index `j ≤ r` (the `k = j+1`-th
attempt) yields a response — of any HTTP status, 2xx or not — and all
earlier attempts fail, then `fetchWithTimeout` with `retries = r` makes
exactly `j + 1` attempts, returns that response, and raises no error: a
received response is returned immediately and never retried, so non-2xx
classification is left to the caller. -/
theorem fetchWithTimeout_success_at (transport : Nat → FetchOutcome) (r j : Nat)
    (resp : Response) (hj : j ≤ r)
    (hfail : ∀ i, i < j → ∃ e, transport i = .failure e)
    (hsucc : transport j = .success resp) :
    fetchWithTimeout transport r = (.ok resp, j + 1) := by
  rw [fetchWithTimeout, fetchFrom_success transport resp j r 0 hj
    (by simpa using hfail) (by simpa using hsucc)]
  simp

/-- Witness for C5: the first attempt fails, the second returns a 500
response; with `retries = 3`, exactly two attempts occur, the non-2xx
response is returned unraised and not retried. -/
theorem fetchWithTimeout_success_at_witness :
    fetchWithTimeout (fun i => if i = 0 then .failure ['e'] else .success ⟨500, []⟩) 3 =
      (.ok ⟨500, []⟩, 2) :=
  fetchWithTimeout_success_at (fun i => if i = 0 then .failure ['e'] else .success ⟨500, []⟩)
    3 1 ⟨500, []⟩ (by omega)
    (fun i hi => ⟨['e'], by interval_cases i; rfl⟩) rfl

/-! ## URL machinery: `decodeURIComponent` and `URLSearchParams`

Both built-ins work byte-wise: `%XX` escapes denote bytes, and byte
sequences are then decoded as UTF-8 (`decodeURIComponent` throws a
`URIError` on malformed input, `URLSearchParams` substitutes U+FFFD).
Literal characters contribute their own UTF-8 bytes.  Overlong encodings
are not rejected by this model (no script input depends on them). -/

/-- UTF-8 encoding of one character. -/
def utf8Bytes (c : Char) : List Nat :=
  let n := c.toNat
  if n < 0x80 then [n]
  else if n < 0x800 then [0xC0 + n / 64, 0x80 + n % 64]
  else if n < 0x10000 then [0xE0 + n / 4096, 0x80 + (n / 64) % 64, 0x80 + n % 64]
  else [0xF0 + n / 262144, 0x80 + (n / 4096) % 64, 0x80 + (n / 64) % 64, 0x80 + n % 64]

def isUtf8Cont (b : Nat) : Bool :=
  0x80 ≤ b && b < 0xC0

def isSurrogateCode (n : Nat) : Bool :=
  0xD800 ≤ n && n < 0xE000

/-- Strict UTF-8 decoding; `none` on any malformed sequence, surrogate code
point, or out-of-range value (the `URIError` cases). -/
def utf8Decode : List Nat → Option (List Char)
  | [] => some []
  | b :: bs =>
    if b < 0x80 then (utf8Decode bs).map (fun cs => Char.ofNat b :: cs)
    else if b < 0xC0 then none
    else if b < 0xE0 then
      match bs with
      | b2 :: bs2 =>
        if isUtf8Cont b2 then
          (utf8Decode bs2).map (fun cs => Char.ofNat ((b - 0xC0) * 64 + (b2 - 0x80)) :: cs)
        else none
      | [] => none
    else if b < 0xF0 then
      match bs with
      | b2 :: b3 :: bs3 =>
        if isUtf8Cont b2 && isUtf8Cont b3 then
          let n := (b - 0xE0) * 4096 + (b2 - 0x80) * 64 + (b3 - 0x80)
          if isSurrogateCode n then none
          else (utf8Decode bs3).map (fun cs => Char.ofNat n :: cs)
        else none
      | _ => none
    else if b < 0xF8 then
      match bs with
      | b2 :: b3 :: b4 :: bs4 =>
        if isUtf8Cont b2 && isUtf8Cont b3 && isUtf8Cont b4 then
          let n := (b - 0xF0) * 262144 + (b2 - 0x80) * 4096 + (b3 - 0x80) * 64 + (b4 - 0x80)
          if n < 0x110000 then (utf8Decode bs4).map (fun cs => Char.ofNat n :: cs)
          else none
        else none
      | _ => none
    else none

/-- The byte sequence denoted by a percent-encoded string: `%XX` escapes
become their byte, anything else contributes its UTF-8 bytes; `none` when a
`%` is not followed by two hex digits (the `URIError` case). -/
def percentBytes : List Char → Option (List Nat)
  | [] => some []
  | '%' :: rest =>
    match rest with
    | h1 :: h2 :: rest2 =>
      match hexVal h1, hexVal h2 with
      | some a, some b => (percentBytes rest2).map (fun bs => (16 * a + b) :: bs)
      | _, _ => none
    | _ => none
  | c :: rest => (percentBytes rest).map (fun bs => utf8Bytes c ++ bs)

/-- `decodeURIComponent`, as a partial function (`none` models the thrown
`URIError`). -/
def decodeURIComponentChars (s : List Char) : Option (List Char) :=
  (percentBytes s).bind utf8Decode

/-- Replacement character U+FFFD. -/
def replChar : Char := Char.ofNat 0xFFFD

/-- Lossy UTF-8 decoding, substituting U+FFFD for malformed bytes, as
`URLSearchParams` does. -/
def utf8DecodeLossy : List Nat → List Char
  | [] => []
  | b :: bs =>
    if b < 0x80 then Char.ofNat b :: utf8DecodeLossy bs
    else if b < 0xC0 then replChar :: utf8DecodeLossy bs
    else if b < 0xE0 then
      match bs with
      | b2 :: bs2 =>
        if isUtf8Cont b2 then Char.ofNat ((b - 0xC0) * 64 + (b2 - 0x80)) :: utf8DecodeLossy bs2
        else replChar :: utf8DecodeLossy (b2 :: bs2)
      | [] => [replChar]
    else if b < 0xF0 then
      match bs with
      | b2 :: b3 :: bs3 =>
        if isUtf8Cont b2 && isUtf8Cont b3 then
          let n := (b - 0xE0) * 4096 + (b2 - 0x80) * 64 + (b3 - 0x80)
          (if isSurrogateCode n then replChar else Char.ofNat n) :: utf8DecodeLossy bs3
        else replChar :: utf8DecodeLossy (b2 :: b3 :: bs3)
      | other => replChar :: utf8DecodeLossy other
    else if b < 0xF8 then
      match bs with
      | b2 :: b3 :: b4 :: bs4 =>
        if isUtf8Cont b2 && isUtf8Cont b3 && isUtf8Cont b4 then
          let n := (b - 0xF0) * 262144 + (b2 - 0x80) * 4096 + (b3 - 0x80) * 64 + (b4 - 0x80)
          (if n < 0x110000 then Char.ofNat n else replChar) :: utf8DecodeLossy bs4
        else replChar :: utf8DecodeLossy (b2 :: b3 :: b4 :: bs4)
      | other => replChar :: utf8DecodeLossy other
    else replChar :: utf8DecodeLossy bs

/-- Bytes of one form-encoded component: `+` is a space, a well-formed `%XX`
is a byte, a malformed `%` is kept literally (no error), anything else
contributes its UTF-8 bytes. -/
def formBytes : List Char → List Nat
  | [] => []
  | '+' :: rest => 0x20 :: formBytes rest
  | '%' :: h1 :: h2 :: rest =>
    match hexVal h1, hexVal h2 with
    | some a, some b => (16 * a + b) :: formBytes rest
    | _, _ => 0x25 :: formBytes (h1 :: h2 :: rest)
  | c :: rest => utf8Bytes c ++ formBytes rest

/-- Decoding of one `application/x-www-form-urlencoded` component, total as
in `URLSearchParams`. -/
def formDecode (s : List Char) : List Char :=
  utf8DecodeLossy (formBytes s)

/-- Split on `&` (keeping empty segments; they are dropped later). -/
def splitSegs : List Char → List (List Char)
  | [] => [[]]
  | '&' :: rest => [] :: splitSegs rest
  | c :: rest =>
    match splitSegs rest with
    | seg :: segs => (c :: seg) :: segs
    | [] => [[c]]

/-- Split a segment at its first `=` (name, value); a segment with no `=`
is a name with empty value. -/
def splitEq : List Char → List Char × List Char
  | [] => ([], [])
  | '=' :: rest => ([], rest)
  | c :: rest =>
    match splitEq rest with
    | (k, v) => (c :: k, v)

/-- `new URLSearchParams(init)` from a string: strips one leading `?`,
splits on `&`, drops empty segments, splits each at the first `=`, and
form-decodes names and values. -/
def parseSearchParams (s : List Char) : List (List Char × List Char) :=
  let s2 := match s with
    | '?' :: rest => rest
    | other => other
  (splitSegs s2).filterMap (fun seg =>
    if seg.isEmpty then none
    else some (formDecode (splitEq seg).1, formDecode (splitEq seg).2))

/-- `params.get(name)`: first value under the name, else null. -/
def getParam (ps : List (List Char × List Char)) (k : List Char) : Option (List Char) :=
  (ps.find? (fun p => p.1 = k)).map (·.2)

/-! ## The browser world and identity resolution -/

def digitsToNat (ds : List Char) : Nat :=
  ds.foldl (fun acc c => acc * 10 + (c.toNat - '0'.toNat)) 0

def isJsWs (c : Char) : Bool :=
  c = ' ' || c = '\t' || c = '\n' || c = '\r'

/-- `Number(s)` on the integral fragment: after trimming whitespace, an
optional sign followed by digits denotes that integer; `none` stands for
`NaN`.  Fractional, exponent and hex numerals (which JS also accepts) are
outside the model — they are floats, and no theorem below concerns a world
that puts one in a recognized parameter. -/
def jsNumber (s : List Char) : Option Int :=
  let t := ((s.dropWhile isJsWs).reverse.dropWhile isJsWs).reverse
  match t with
  | '-' :: ds => if ds ≠ [] ∧ ds.all isDigit then some (-(digitsToNat ds : Int)) else none
  | '+' :: ds => if ds ≠ [] ∧ ds.all isDigit then some ((digitsToNat ds : Int)) else none
  | ds => if ds ≠ [] ∧ ds.all isDigit then some ((digitsToNat ds : Int)) else none

/-- The host-SDK object `window.Telegram.WebApp`, when reachable and truthy:
its `initData` / `initDataUnsafe` properties may each be absent (`none`,
i.e. `undefined`) or hold any JS value. -/
structure WebApp where
  initData : Option JSVal
  initDataUnsafe : Option JSVal
deriving DecidableEq

/-- What the scripts read from the page: `window.location.search` (raw,
with its leading `?`), and the host SDK object when
`window.Telegram && window.Telegram.WebApp` is truthy. -/
structure World where
  telegramWebApp : Option WebApp
  search : List Char
deriving DecidableEq

/-- The context object both variants of `getTelegramContext` return. -/
structure TgContext where
  tg : Option WebApp
  initData : JSVal
  initDataUnsafe : JSVal
  user : JSVal
deriving DecidableEq

/-- `getTelegramContext()` of `scripts/bg-integration.js`: host SDK only,
no URL fallback of any kind. -/
def Scripts.getTelegramContext (w : World) : Option TgContext :=
  match w.telegramWebApp with
  | none => none
  | some tg =>
    let du := jsOrU tg.initDataUnsafe (.jobj [])
    let user := jsOrU (jsGetField du "user".data) .jnull
    some ⟨some tg, jsOrU tg.initData (.jstr []), du, user⟩

namespace P3

/-- `getURLParams()` of `part_003`: the recognized query parameters, with
empty values coerced to null and `tg_uid` put through `Number`.  `uid`'s
`none` covers both null (parameter missing/empty) and `NaN` — the script
only ever tests `uid` for truthiness, under which both are falsy. -/
structure URLParams where
  uid : Option Int
  username : Option (List Char)
  first : Option (List Char)
  last : Option (List Char)
  lang : Option (List Char)
  premium : Bool
  sig : Option (List Char)
deriving DecidableEq

/-- The local helper `val(k)` of `getURLParams`. -/
def val (ps : List (List Char × List Char)) (k : List Char) : Option (List Char) :=
  match getParam ps k with
  | none => none
  | some v => if v = [] then none else some v

def getURLParams (w : World) : URLParams :=
  let p := parseSearchParams w.search
  { uid := match val p "tg_uid".data with
      | none => none
      | some uidRaw => jsNumber uidRaw
    username := val p "tg_username".data
    first := val p "tg_first".data
    last := val p "tg_last".data
    lang := val p "tg_lang".data
    premium := val p "tg_premium".data = some "true".data
    sig := val p "sig".data }

/-- The parsed blob `parseInitDataFromURL` yields. -/
structure ParsedInit where
  initData : List Char
  user : JSVal
deriving DecidableEq

/-- `parseInitDataFromURL()` of `part_003`: `tgWebAppData` (or its
lower-case spelling) from the query string, `decodeURIComponent`d, read as
form parameters, with its `user` entry JSON-parsed.  Decode and parse
failures collapse to null through the try/catch wrappers. -/
def parseInitDataFromURL (w : World) : Option ParsedInit :=
  let qs := parseSearchParams w.search
  let raw :=
    match getParam qs "tgWebAppData".data with
    | some v => if v = [] then getParam qs "tgwebappdata".data else some v
    | none => getParam qs "tgwebappdata".data
  match raw with
  | none => none
  | some rawv =>
    if rawv = [] then none
    else
      match decodeURIComponentChars rawv with
      | none => none
      | some decoded =>
        let kv := parseSearchParams decoded
        let user : JSVal :=
          match getParam kv "user".data with
          | none => .jnull
          | some us =>
            if us = [] then .jnull
            else
              match jsonParse us with
              | .ok u => u
              | .error _ => .jnull
        some ⟨decoded, user⟩

/-- `getTelegramContext()` of `part_003`: the live host-SDK object if
present; otherwise the embedded blob, but only when it yields a truthy
user; otherwise null. -/
def getTelegramContext (w : World) : Option TgContext :=
  match w.telegramWebApp with
  | none =>
    match parseInitDataFromURL w with
    | some parsed =>
      if jsTruthy parsed.user then
        some ⟨none, .jstr parsed.initData, .jobj [], parsed.user⟩
      else none
    | none => none
  | some tg =>
    let du := jsOrU tg.initDataUnsafe (.jobj [])
    let user := jsOrU (jsGetField du "user".data) .jnull
    some ⟨some tg, jsOrU tg.initData (.jstr []), du, user⟩

/-- The body `buildRegisterPayload` produces (`PlayerRegisterSchema`). -/
structure RegisterPayload where
  telegram_id : JSVal
  username : JSVal
  first_name : JSVal
  last_name : JSVal
deriving DecidableEq

def optStrJS : Option (List Char) → JSVal
  | none => .jnull
  | some s => .jstr s

/-- The fallback branch of `buildRegisterPayload`:
`window.Telegram?.WebApp?.initDataUnsafe?.user`, with each field
null-coalesced (`?? null`, and `?? 0` for the id).  Note it reads the SDK
object directly — not `getTelegramContext` — so the embedded blob is never
consulted. -/
def registerFallback (w : World) : RegisterPayload :=
  let u : Option JSVal :=
    match w.telegramWebApp with
    | none => none
    | some tg => optChainField tg.initDataUnsafe "user".data
  { telegram_id := jsNullish (optChainField u "id".data) (.jnum 0)
    username := jsNullish (optChainField u "username".data) .jnull
    first_name := jsNullish (optChainField u "first_name".data) .jnull
    last_name := jsNullish (optChainField u "last_name".data) .jnull }

/-- `buildRegisterPayload()` of `part_003`: URL parameters win when
`q.uid` is truthy (a nonzero number), else the SDK fallback. -/
def buildRegisterPayload (w : World) : RegisterPayload :=
  let q := getURLParams w
  match q.uid with
  | some n =>
    if n ≠ 0 then
      { telegram_id := .jnum n
        username := optStrJS q.username
        first_name := optStrJS q.first
        last_name := optStrJS q.last }
    else registerFallback w
  | none => registerFallback w

end P3

/-- **C2, counterexample.**  The claimed precedence chain breaks at step
(c): in a world with no host SDK, no `tg_uid` parameter, and a well-formed
embedded blob whose JSON user has id 777, the claim resolves the identity
from the blob (telegram id 777), but `buildRegisterPayload` — which builds
every identity payload the scripts send — never consults the blob and
produces the invalid sentinel 0. -/
theorem c2_counterexample :
    (P3.parseInitDataFromURL ⟨none, "?tgWebAppData=user%3D%7B%22id%22%3A777%7D".data⟩).map
        (fun p => jsGetField p.user "id".data) = some (some (.jnum 777))
    ∧ (P3.getURLParams ⟨none, "?tgWebAppData=user%3D%7B%22id%22%3A777%7D".data⟩).uid = none
    ∧ (P3.buildRegisterPayload
        ⟨none, "?tgWebAppData=user%3D%7B%22id%22%3A777%7D".data⟩).telegram_id ≠ .jnum 777
    ∧ (P3.buildRegisterPayload
        ⟨none, "?tgWebAppData=user%3D%7B%22id%22%3A777%7D".data⟩).telegram_id = .jnum 0 := by
  refine ⟨by decide, by decide, by decide, by decide⟩

/-- **C2, amended.**  In `part_003` the precedence is split across two
functions, neither of which implements the full claimed chain.
For `buildRegisterPayload` (which builds every payload the scripts send):
(1) a `tg_uid` parameter parsing to a nonzero integer wins, and the payload
is then independent of the host SDK (the claim's precedence test);
(2) otherwise the payload comes from the SDK fallback, and
(3) that fallback never reads the URL — so the embedded blob is never
consulted for a payload.
For `getTelegramContext`:
(4) a present host-SDK object wins and the context ignores the URL
entirely (both `tg_uid` and the blob);
(5) with no SDK, the embedded blob's user is used exactly when it is
truthy; and
(6) with no SDK and no parseable blob, the context is unavailable. -/
theorem c2_amended_precedence :
    (∀ (s : List Char) (ta tb : Option WebApp) (n : Int),
      (P3.getURLParams ⟨ta, s⟩).uid = some n → n ≠ 0 →
        P3.buildRegisterPayload ⟨ta, s⟩ =
          { telegram_id := .jnum n
            username := P3.optStrJS (P3.getURLParams ⟨ta, s⟩).username
            first_name := P3.optStrJS (P3.getURLParams ⟨ta, s⟩).first
            last_name := P3.optStrJS (P3.getURLParams ⟨ta, s⟩).last }
        ∧ P3.buildRegisterPayload ⟨ta, s⟩ = P3.buildRegisterPayload ⟨tb, s⟩)
    ∧ (∀ w : World, (P3.getURLParams w).uid = none ∨ (P3.getURLParams w).uid = some 0 →
        P3.buildRegisterPayload w = P3.registerFallback w)
    ∧ (∀ (t : Option WebApp) (s s' : List Char),
        P3.registerFallback ⟨t, s⟩ = P3.registerFallback ⟨t, s'⟩)
    ∧ (∀ (t : WebApp) (s s' : List Char),
        P3.getTelegramContext ⟨some t, s⟩ = P3.getTelegramContext ⟨some t, s'⟩
        ∧ (P3.getTelegramContext ⟨some t, s⟩).isSome = true)
    ∧ (∀ (s : List Char) (p : P3.ParsedInit), P3.parseInitDataFromURL ⟨none, s⟩ = some p →
        (jsTruthy p.user = true →
          (P3.getTelegramContext ⟨none, s⟩).map (·.user) = some p.user)
        ∧ (jsTruthy p.user = false → P3.getTelegramContext ⟨none, s⟩ = none))
    ∧ (∀ s : List Char, P3.parseInitDataFromURL ⟨none, s⟩ = none →
        P3.getTelegramContext ⟨none, s⟩ = none) := by
  refine ⟨?_, ?_, ?_, ?_, ?_, ?_⟩
  · intro s ta tb n huid hn
    have huid2 : (P3.getURLParams ⟨tb, s⟩).uid = some n := huid
    constructor
    · simp [P3.buildRegisterPayload, huid, hn]
    · simp [P3.buildRegisterPayload, huid, huid2, hn]
      exact ⟨rfl, rfl, rfl⟩
  · intro w h
    rcases h with h | h <;> simp [P3.buildRegisterPayload, h]
  · intro t s s'
    rfl
  · intro t s s'
    exact ⟨rfl, rfl⟩
  · intro s p hp
    constructor
    · intro htr
      simp [P3.getTelegramContext, hp, htr]
    · intro hfa
      simp [P3.getTelegramContext, hp, hfa]
  · intro s hp
    simp [P3.getTelegramContext, hp]

/-- Witness for the amended C2 at concrete worlds: `tg_uid=42` beats a live
SDK user with id 99; and with no SDK, the blob user id 777 is what
`getTelegramContext` yields. -/
theorem c2_amended_precedence_witness :
    (P3.buildRegisterPayload
        ⟨some ⟨none, some (.jobj [("user".data, .jobj [("id".data, .jnum 99)])])⟩,
          "?tg_uid=42".data⟩).telegram_id = .jnum 42
    ∧ (P3.getTelegramContext
        ⟨none, "?tgWebAppData=user%3D%7B%22id%22%3A777%7D".data⟩).map (·.user) =
      some (.jobj [("id".data, .jnum 777)]) := by
  constructor
  · have h := (c2_amended_precedence.1 "?tg_uid=42".data
      (some ⟨none, some (.jobj [("user".data, .jobj [("id".data, .jnum 99)])])⟩)
      none 42 (by decide) (by decide)).1
    rw [h]
  · have h := (c2_amended_precedence.2.2.2.2.1
      "?tgWebAppData=user%3D%7B%22id%22%3A777%7D".data
      ⟨"user=\x7b\"id\":777\x7d".data, .jobj [("id".data, .jnum 777)]⟩
      (by decide)).1 (by decide)
    exact h

/-! ## Session lifecycle guard (`_started` / `doStart`)

`doStart` is `if (_started) return; _started = true; try { await
startSession(); } catch (e) { console.warn(e); }`.  The guard and the flag
assignment run synchronously before the first suspension point, so on the
single-threaded event loop each invocation sees the flag left by the
previous one; the outcome of the awaited `startSession` call (success or
caught failure) never touches the flag.  A page load is modelled as the
list of `doStart` invocations that actually fire (the immediate call at
initialization and the once-only pointer-down / key-down / touch-start
listeners, in whatever order they occur), each carrying the outcome its
`startSession` call would have. -/

structure LifecycleState where
  started : Bool
  attempts : Nat
deriving DecidableEq

/-- One `doStart` invocation: a no-op if the flag is set, otherwise it sets
the flag and attempts `startSession`, whose outcome (even an error — it is
caught and logged) does not change the lifecycle state. -/
def doStart (_outcome : Except (List Char) JSVal) (st : LifecycleState) : LifecycleState :=
  if st.started then st
  else { started := true, attempts := st.attempts + 1 }

/-- The sequence of trigger firings over one page load. -/
def runTriggers (outcomes : List (Except (List Char) JSVal)) (st : LifecycleState) :
    LifecycleState :=
  match outcomes with
  | [] => st
  | o :: os => runTriggers os (doStart o st)

/-- The state at page load: not started, no attempts. -/
def initLifecycle : LifecycleState := ⟨false, 0⟩

theorem runTriggers_started (outcomes : List (Except (List Char) JSVal))
    (st : LifecycleState) (h : st.started = true) : runTriggers outcomes st = st := by
  induction outcomes with
  | nil => rfl
  | cons o os ih => simp [runTriggers, doStart, h, ih]

/-- **C6.**  The `NOT_STARTED → STARTED` transition fires at most once per
page load: over any sequence of trigger firings, the number of
start-session attempts is `min(length, 1)` — zero with no trigger, exactly
one otherwise (the first trigger performs it, every later one is a no-op,
and two gesture firings still give exactly one attempt) — and the flag is
set exactly when some trigger fired. -/
theorem startSession_attempted_once (outcomes : List (Except (List Char) JSVal)) :
    runTriggers outcomes initLifecycle =
      ⟨!outcomes.isEmpty, min outcomes.length 1⟩ := by
  cases outcomes with
  | nil => rfl
  | cons o os =>
    have h1 : doStart o initLifecycle = ⟨true, 1⟩ := rfl
    simp [runTriggers, h1, runTriggers_started os ⟨true, 1⟩ rfl]

/-- **C9.**  The started flag is set before the start-session call resolves
and is never reset: `doStart`'s resulting state does not depend on the
call's outcome, the flag is true after any invocation, and after a first
trigger whose `startSession` call fails, every later trigger is a no-op —
the failed call is never retried within the page load. -/
theorem started_set_regardless_of_outcome (o o2 : Except (List Char) JSVal)
    (st : LifecycleState) (e : List Char)
    (outcomes : List (Except (List Char) JSVal)) :
    doStart o st = doStart o2 st
    ∧ (doStart o st).started = true
    ∧ runTriggers (Except.error e :: outcomes) initLifecycle = ⟨true, 1⟩ := by
  refine ⟨rfl, ?_, ?_⟩
  · by_cases h : st.started <;> simp [doStart, h]
  · have h1 : doStart (Except.error e) initLifecycle = ⟨true, 1⟩ := rfl
    simp [runTriggers, h1, runTriggers_started outcomes ⟨true, 1⟩ rfl]

/-! ## `startSession` and `endSession`

The network is passed in as the transport the call's `fetchWithTimeout`
uses; clock readings (`new Date().toISOString()`) are passed in as the
strings they produce, one per call site. -/

/-- `a || b` on two JS values that may each be undefined (left-associated,
as in `data.session_id || data.id`). -/
def jsOrUU (a b : Option JSVal) : Option JSVal :=
  match a with
  | none => b
  | some v => if jsTruthy v then some v else b

/-- The id selected for the stored record:
`data.session_id || data.id || null` (chosen by truthiness, not presence;
identical in both variants). -/
def chosenSessionId (data : JSVal) : JSVal :=
  jsOrU (jsOrUU (jsGetField data "session_id".data) (jsGetField data "id".data)) .jnull

/-- What a `startSession` call produces when it does not raise: the request
payload it sent, the parsed response body (`{}` when the body fails to
parse), and the storage after `saveSession`. -/
structure StartResult where
  payload : JSVal
  data : JSVal
  storage : Storage
deriving DecidableEq

/-- `startSession()` of `scripts/bg-integration.js`: the payload carries
`started_at` = the timestamp captured at call time (`callTime`), and on a
2xx response the record `{ id: data.session_id || data.id || null,
started_at: payload.started_at }` is saved — the same `callTime`.  A
transport failure after the retries, or a non-2xx response, raises. -/
def Scripts.startSession (w : World) (callTime : List Char)
    (transport : Nat → FetchOutcome) (retries : Nat) (st : Storage) :
    Except (List Char) StartResult :=
  let ctx := Scripts.getTelegramContext w
  let payload : JSVal := .jobj
    [("started_at".data, .jstr callTime),
     ("telegram_id".data, jsNullish (optChainField (ctx.map (·.user)) "id".data) .jnull)]
  match (fetchWithTimeout transport retries).1 with
  | .error e => .error e
  | .ok res =>
    if res.ok then
      let data : JSVal :=
        match jsonParse res.body with
        | .ok v => v
        | .error _ => .jobj []
      .ok ⟨payload, data, saveSession ⟨chosenSessionId data, callTime⟩ st⟩
    else
      .error ("Start session failed: ".data ++ (toString res.status).data ++ ' ' :: res.body)

/-- `startSession()` of `part_003`: the payload carries an
`idempotency_key` timestamp captured at call time (`idemTime`) and a
generated `game_code` (`uuid`); on a 2xx response the saved record's
`started_at` is a second, fresh timestamp captured at save time
(`saveTime`) — not the call-time one. -/
def P3.startSession (w : World) (idemTime saveTime uuid : List Char)
    (transport : Nat → FetchOutcome) (retries : Nat) (st : Storage) :
    Except (List Char) StartResult :=
  let tgctx := P3.buildRegisterPayload w
  let payload : JSVal := .jobj
    [("idempotency_key".data, .jstr idemTime),
     ("telegram_id".data, tgctx.telegram_id),
     ("start_params".data, .jobj []),
     ("game_code".data, .jstr uuid)]
  match (fetchWithTimeout transport retries).1 with
  | .error e => .error e
  | .ok res =>
    if res.ok then
      let data : JSVal :=
        match jsonParse res.body with
        | .ok v => v
        | .error _ => .jobj []
      .ok ⟨payload, data, saveSession ⟨chosenSessionId data, saveTime⟩ st⟩
    else
      .error ("Start session failed: ".data ++ (toString res.status).data ++ ' ' :: res.body)

/-- What `endSession` produces — it never raises: the payload it sent, the
response its swallowed fetch yielded (`none` after a network failure, which
the `.catch` turns into `null`), and the storage after the unconditional
`clearSession()`. -/
structure EndResult where
  payload : JSVal
  res : Option Response
  storage : Storage
deriving DecidableEq

/-- `endSession(reason)` of `scripts/bg-integration.js`: reads the stored
session once, sends `session_id: session?.id ?? null`, swallows any network
error, then clears the stored session unconditionally; a non-2xx response
is only logged. -/
def Scripts.endSession (reason : List Char) (w : World) (now : List Char)
    (transport : Nat → FetchOutcome) (retries : Nat) (st : Storage) : EndResult :=
  let session := loadSession st
  let ctx := Scripts.getTelegramContext w
  let payload : JSVal := .jobj
    [("session_id".data, jsNullish (optChainField (some session) "id".data) .jnull),
     ("ended_at".data, .jstr now),
     ("reason".data, .jstr reason),
     ("telegram_id".data, jsNullish (optChainField (ctx.map (·.user)) "id".data) .jnull)]
  let res : Option Response :=
    match (fetchWithTimeout transport retries).1 with
    | .ok r => some r
    | .error _ => none
  ⟨payload, res, clearSession st⟩

/-- **C7.**  `endSession` with no stored session sends `session_id: null`,
and — with any stored session and any transport behaviour, including a
failing one — removes the persisted session key unconditionally after the
attempt; it returns normally in every case (it is a total function: the
fetch error is swallowed by the `.catch`, so no error reaches the
caller). -/
theorem endSession_clears_unconditionally (reason : List Char) (w : World)
    (now : List Char) (transport : Nat → FetchOutcome) (retries : Nat)
    (st st2 : Storage) (h : loadSession st = .jnull) :
    jsGetField (Scripts.endSession reason w now transport retries st).payload
      "session_id".data = some .jnull
    ∧ (Scripts.endSession reason w now transport retries st).storage = clearSession st
    ∧ (Scripts.endSession reason w now transport retries st2).storage = clearSession st2 := by
  refine ⟨?_, rfl, rfl⟩
  simp [Scripts.endSession, h, jsGetField, optChainField, jsNullish]

/-- Witness for C7: empty storage, a transport that always fails, one
retry: the request's `session_id` is null and the storage key stays
absent. -/
theorem endSession_clears_unconditionally_witness :
    jsGetField (Scripts.endSession "page_hidden".data ⟨none, "?".data⟩ "T".data
      (fun _ => .failure ['e']) 1 (.available none)).payload "session_id".data = some .jnull
    ∧ (Scripts.endSession "page_hidden".data ⟨none, "?".data⟩ "T".data
      (fun _ => .failure ['e']) 1 (.available none)).storage = .available none := by
  have h := endSession_clears_unconditionally "page_hidden".data ⟨none, "?".data⟩ "T".data
    (fun _ => .failure ['e']) 1 (.available none) (.available none) (by decide)
  exact ⟨h.1, h.2.1⟩

/-- **C8, counterexample.**  In the `part_003` variant the claim fails: a
successful start call whose body is `{"session_id":"abc-123"}` is issued at
call time `T1` (the payload's `idempotency_key` timestamp), but the record
`loadSession()` then returns carries `started_at = "T2"` — the fresh
timestamp read when the response was processed — not the call-time `T1` the
claim requires. -/
theorem c8_counterexample :
    (P3.startSession ⟨none, "?".data⟩ "T1".data "T2".data "u".data
        (fun _ => .success ⟨200, "\x7b\"session_id\":\"abc-123\"\x7d".data⟩) 1
        (.available none)).map
      (fun r => (jsGetField r.payload "idempotency_key".data, loadSession r.storage)) =
      .ok (some (.jstr "T1".data),
        .jobj [("id".data, .jstr "abc-123".data), ("started_at".data, .jstr "T2".data)])
    ∧ (JSVal.jobj [("id".data, .jstr "abc-123".data), ("started_at".data, .jstr "T2".data)]
        ≠ .jobj [("id".data, .jstr "abc-123".data), ("started_at".data, .jstr "T1".data)]) := by
  refine ⟨by decide, by decide⟩

/-- **C8, amended.**  After a successful start-session call whose 2xx
response body is `{"session_id": s}` with `s` non-empty, a subsequent
`loadSession()` returns a record whose id is `s`; in
`scripts/bg-integration.js` its `started_at` is the ISO timestamp captured
client-side at start-call time (the payload's `started_at`), while in the
`part_003` variant it is a fresh timestamp captured when the response is
processed. -/
theorem startSession_then_loadSession (w : World)
    (callTime idemTime saveTime uuid : List Char) (v : Option (List Char))
    (res : Response) (sid : List Char) (transport : Nat → FetchOutcome) (retries : Nat)
    (hok : res.ok = true)
    (hnet : (fetchWithTimeout transport retries).1 = .ok res)
    (hbody : jsonParse res.body = .ok (.jobj [("session_id".data, .jstr sid)]))
    (hsid : sid ≠ []) :
    ((Scripts.startSession w callTime transport retries (.available v)).map
        (fun r => loadSession r.storage)) =
      .ok (SessionRecord.mk (.jstr sid) callTime).toJS
    ∧ ((P3.startSession w idemTime saveTime uuid transport retries (.available v)).map
        (fun r => loadSession r.storage)) =
      .ok (SessionRecord.mk (.jstr sid) saveTime).toJS := by
  have hchosen : chosenSessionId (.jobj [("session_id".data, .jstr sid)]) = .jstr sid := by
    simp [chosenSessionId, jsGetField, jsOrUU, jsOrU, jsTruthy, hsid]
  have hload1 := loadSession_saveSession (.jstr sid) (Or.inr ⟨sid, rfl⟩) callTime v
  have hload2 := loadSession_saveSession (.jstr sid) (Or.inr ⟨sid, rfl⟩) saveTime v
  constructor
  · simp [Scripts.startSession, hnet, hok, hbody, hchosen, Except.map, hload1]
  · simp [P3.startSession, hnet, hok, hbody, hchosen, Except.map, hload2]

/-- Witness for the amended C8: a direct success with body
`{"session_id":"abc-123"}`; the scripts variant stores the call-time
stamp, the `part_003` variant the save-time stamp. -/
theorem startSession_then_loadSession_witness :
    ((Scripts.startSession ⟨none, "?".data⟩ "T1".data
        (fun _ => .success ⟨200, "\x7b\"session_id\":\"abc-123\"\x7d".data⟩) 1
        (.available none)).map (fun r => loadSession r.storage)) =
      .ok (.jobj [("id".data, .jstr "abc-123".data), ("started_at".data, .jstr "T1".data)])
    ∧ ((P3.startSession ⟨none, "?".data⟩ "T1".data "T2".data "u".data
        (fun _ => .success ⟨200, "\x7b\"session_id\":\"abc-123\"\x7d".data⟩) 1
        (.available none)).map (fun r => loadSession r.storage)) =
      .ok (.jobj [("id".data, .jstr "abc-123".data), ("started_at".data, .jstr "T2".data)]) :=
  startSession_then_loadSession ⟨none, "?".data⟩ "T1".data "T1".data "T2".data "u".data none
    ⟨200, "\x7b\"session_id\":\"abc-123\"\x7d".data⟩ "abc-123".data
    (fun _ => .success ⟨200, "\x7b\"session_id\":\"abc-123\"\x7d".data⟩) 1
    (by decide) (by decide) (by decide) (by decide)

/-- **C10.**  The stored session id is chosen by truthiness, not presence:
on any 2xx response parsing to `data`, the saved record's id is the value
of `data.session_id || data.id || null` — a present-but-falsy `session_id`
(the empty string) is passed over in favour of `id`, both falsy or absent
fall through to null — and the record is written over whatever the storage
held before. -/
theorem stored_id_truthiness (w : World) (callTime : List Char) (v : Option (List Char))
    (res : Response) (data : JSVal) (transport : Nat → FetchOutcome) (retries : Nat)
    (xs : List Char) (hxs : xs ≠ [])
    (hok : res.ok = true)
    (hnet : (fetchWithTimeout transport retries).1 = .ok res)
    (hbody : jsonParse res.body = .ok data) :
    ((Scripts.startSession w callTime transport retries (.available v)).map (·.storage)) =
      .ok (.available
        (some (stringifyVal (SessionRecord.mk (chosenSessionId data) callTime).toJS)))
    ∧ chosenSessionId (.jobj [("session_id".data, .jstr []), ("id".data, .jstr xs)]) = .jstr xs
    ∧ chosenSessionId (.jobj [("session_id".data, .jstr []), ("id".data, .jstr [])]) = .jnull
    ∧ chosenSessionId (.jobj []) = .jnull := by
  refine ⟨?_, ?_, by decide, by decide⟩
  · simp [Scripts.startSession, hnet, hok, hbody, saveSession, setItemRaw, Except.map]
  · simp [chosenSessionId, jsGetField, jsOrUU, jsOrU, jsTruthy, hxs]

/-- Witness for C10: the response body has `session_id: ""` and
`id: "xyz"`; storage previously held other text, and the saved record's id
is `"xyz"`. -/
theorem stored_id_truthiness_witness :
    ((Scripts.startSession ⟨none, "?".data⟩ "T".data
        (fun _ => .success ⟨200, "\x7b\"session_id\":\"\",\"id\":\"xyz\"\x7d".data⟩) 1
        (.available (some "old".data))).map (·.storage)) =
      .ok (.available (some (stringifyVal (SessionRecord.mk
        (chosenSessionId (.jobj [("session_id".data, .jstr []), ("id".data, .jstr "xyz".data)]))
        "T".data).toJS)))
    ∧ chosenSessionId (.jobj [("session_id".data, .jstr []), ("id".data, .jstr "xyz".data)]) =
      .jstr "xyz".data := by
  have h := stored_id_truthiness ⟨none, "?".data⟩ "T".data (some "old".data)
    ⟨200, "\x7b\"session_id\":\"\",\"id\":\"xyz\"\x7d".data⟩
    (.jobj [("session_id".data, .jstr []), ("id".data, .jstr "xyz".data)])
    (fun _ => .success ⟨200, "\x7b\"session_id\":\"\",\"id\":\"xyz\"\x7d".data⟩) 1
    "xyz".data (by decide) (by decide) (by decide) (by decide)
  exact ⟨h.1, h.2.1⟩
